import Mathlib

/-!
Verification of the vlxck secret-store engine against its specification.

This file shallowly embeds the relevant Go code of the repository:
  * `internal/store/store.go`   — data model, `LoadStore`, `SaveStore`
  * `internal/crypto/crypto.go` — `DeriveKey`, `Encrypt`, `Decrypt` (AES-256-GCM,
    modelled symbolically: the authentication tag records key, nonce and
    plaintext, and decryption succeeds exactly when the tag matches)
  * `cmd/backup.go`             — the merge loop of the `import` command
  * `cmd/add.go`                — `addInteractive`, `addNonInteractive`
  * `internal/utils`            — `PromptForSecretName` validation, `GeneratePassword`
  * `internal/cache`            — `GetMasterPassword`; `cmd/root.go` — `getPassword`

Machine integers do not overflow in any modelled path, so Go `int` fields are
Nat.  `time.Time` values are modelled as Nat with the zero value `0`.
File contents are `List Nat` (one Nat per byte).  Randomness (salts, nonces,
generated passwords) is passed in explicitly as oracle arguments.
JSON serialization is modelled by an executable injective codec with a proved
round-trip, which is the only property the store format relies on.
-/

namespace Vlxck

/-! ## Data model (`internal/store/store.go`) -/

/-- `Secret` from store.go: name, value, category, created_at.
`createdAt` models Go `time.Time`; the Go zero time is modelled as `0`. -/
structure Secret where
  name : String
  value : String
  category : String
  createdAt : Nat
deriving DecidableEq, Repr

/-- `Store` from store.go: schema version and the ordered list of secrets. -/
structure Store where
  version : Nat
  secrets : List Secret
deriving DecidableEq, Repr

/-! ## Serialization model (Go `encoding/json` round-trip)

`json.Marshal`/`json.Unmarshal` of a `Store` are modelled by an executable
length-prefixed codec on byte lists.  Spec §6 requires only that the chosen
serialization round-trips, which is proved below. -/

/-- Byte representation of a string: one Nat per character code. -/
def strBytes (s : String) : List Nat :=
  s.data.map Char.toNat

/-- Length-prefixed string encoding. -/
def encStrL (s : String) : List Nat :=
  s.data.length :: strBytes s

/-- Decode a length-prefixed string, returning it with the remaining input. -/
def decStrL : List Nat → Option (String × List Nat)
  | [] => none
  | n :: rest =>
    if n ≤ rest.length then
      some (String.mk ((rest.take n).map Char.ofNat), rest.drop n)
    else none

theorem decStrL_encStrL (s : String) (t : List Nat) :
    decStrL (encStrL s ++ t) = some (s, t) := by
  have hlen : (s.data.map Char.toNat).length = s.data.length := List.length_map _ _
  simp only [encStrL, strBytes, List.cons_append, decStrL]
  rw [if_pos]
  · rw [List.take_left' hlen, List.drop_left' hlen, List.map_map]
    have : (Char.ofNat ∘ Char.toNat) = id := funext fun c => Char.ofNat_toNat c
    rw [this, List.map_id]
  · rw [List.length_append, hlen]
    exact Nat.le_add_right _ _

/-- Encoding of one `Secret`. -/
def encSecret (c : Secret) : List Nat :=
  encStrL c.name ++ encStrL c.value ++ encStrL c.category ++ [c.createdAt]

/-- Decode one `Secret`, returning it with the remaining input. -/
def decSecret (l : List Nat) : Option (Secret × List Nat) :=
  match decStrL l with
  | none => none
  | some (name, l1) =>
    match decStrL l1 with
    | none => none
    | some (value, l2) =>
      match decStrL l2 with
      | none => none
      | some (category, l3) =>
        match l3 with
        | createdAt :: rest => some (⟨name, value, category, createdAt⟩, rest)
        | [] => none

theorem decSecret_encSecret (c : Secret) (t : List Nat) :
    decSecret (encSecret c ++ t) = some (c, t) := by
  simp only [encSecret, decSecret, List.append_assoc, List.cons_append,
    List.nil_append, decStrL_encStrL]

/-- Decode a counted sequence of secrets. -/
def decSecrets : Nat → List Nat → Option (List Secret × List Nat)
  | 0, l => some ([], l)
  | n + 1, l =>
    match decSecret l with
    | none => none
    | some (c, rest) =>
      match decSecrets n rest with
      | none => none
      | some (cs, r) => some (c :: cs, r)

theorem decSecrets_enc (cs : List Secret) (t : List Nat) :
    decSecrets cs.length ((cs.map encSecret).flatten ++ t) = some (cs, t) := by
  induction cs generalizing t with
  | nil => simp [decSecrets]
  | cons c rest ih =>
    simp only [List.map_cons, List.flatten_cons, List.length_cons, List.append_assoc,
      decSecrets, decSecret_encSecret, ih]

/-- Model of `json.Marshal` on a `Store`. -/
def marshal (st : Store) : List Nat :=
  st.version :: st.secrets.length :: (st.secrets.map encSecret).flatten

/-- Model of `json.Unmarshal` into a `Store`; `none` models a parse error. -/
def unmarshal (l : List Nat) : Option Store :=
  match l with
  | v :: n :: rest =>
    match decSecrets n rest with
    | none => none
    | some (cs, r) => if r = [] then some ⟨v, cs⟩ else none
  | _ => none

theorem unmarshal_marshal (st : Store) : unmarshal (marshal st) = some st := by
  have h := decSecrets_enc st.secrets []
  rw [List.append_nil] at h
  simp [marshal, unmarshal, h]

/-! ## Crypto model (`internal/crypto/crypto.go`, `golang.org/x/crypto/argon2`)

`DeriveKey` (Argon2id, 1 iteration, 64 MiB) is deterministic with no internal
randomness, so a derived key is modelled by its inputs together with the KDF
parameters (the cache key of `internal/cache` uses 3 iterations, 32 MiB).
AES-256-GCM is modelled symbolically: `GCMSeal` appends an authentication tag
recording key, nonce and plaintext, and `GCMOpen` recomputes and checks the
tag, returning the plaintext exactly on a match and failing closed otherwise. -/

/-- A symbolic Argon2id-derived key: `argon2.IDKey(password, salt, time, memory, 4, 32)`. -/
structure DerivedKey where
  password : String
  salt : List Nat
  time : Nat
  memory : Nat
deriving DecidableEq, Repr

/-- `crypto.DeriveKey`: Argon2id with time 1, memory 64*1024, 4 threads, 32-byte key. -/
def DeriveKey (password : String) (salt : List Nat) : DerivedKey :=
  ⟨password, salt, 1, 64 * 1024⟩

/-- The symbolic GCM authentication tag over key, nonce and plaintext
(each component length-prefixed so the encoding is unambiguous). -/
def gcmTagBytes (key : DerivedKey) (nonce pt : List Nat) : List Nat :=
  [key.time, key.memory] ++ encStrL key.password ++
    (key.salt.length :: key.salt) ++ (nonce.length :: nonce) ++ (pt.length :: pt)

/-- Symbolic `aesgcm.Seal`: ciphertext-with-tag.  The tag (with its length as
the final byte) is appended to the plaintext, modelling the 16-byte GCM tag. -/
def GCMSeal (key : DerivedKey) (nonce pt : List Nat) : List Nat :=
  pt ++ gcmTagBytes key nonce pt ++ [(gcmTagBytes key nonce pt).length]

/-- Symbolic `aesgcm.Open`: verifies the authentication tag before returning
plaintext; any mismatch of key, nonce or data fails closed with `none`. -/
def GCMOpen (key : DerivedKey) (nonce ct : List Nat) : Option (List Nat) :=
  match ct.getLast? with
  | none => none
  | some n =>
    let body := ct.dropLast
    if n ≤ body.length then
      let pt := body.take (body.length - n)
      if body.drop (body.length - n) = gcmTagBytes key nonce pt then some pt else none
    else none

theorem gcmOpen_seal (key : DerivedKey) (nonce pt : List Nat) :
    GCMOpen key nonce (GCMSeal key nonce pt) = some pt := by
  have hlast : (GCMSeal key nonce pt).getLast? = some (gcmTagBytes key nonce pt).length := by
    rw [GCMSeal]; exact List.getLast?_concat _
  have hbody : (GCMSeal key nonce pt).dropLast = pt ++ gcmTagBytes key nonce pt := by
    rw [GCMSeal]; exact List.dropLast_concat
  have hlen : (pt ++ gcmTagBytes key nonce pt).length - (gcmTagBytes key nonce pt).length
      = pt.length := by
    rw [List.length_append, Nat.add_sub_cancel]
  rw [GCMOpen, hlast]
  simp only [hbody, hlen]
  rw [if_pos (by rw [List.length_append]; exact Nat.le_add_left _ _),
    List.take_left, List.drop_left, if_pos rfl]

theorem gcmSeal_ne_of_nonce_ne (key : DerivedKey) {n1 n2 : List Nat} (pt : List Nat)
    (hlen : n1.length = n2.length) (hne : n1 ≠ n2) :
    GCMSeal key n1 pt ≠ GCMSeal key n2 pt := by
  intro h
  apply hne
  rw [GCMSeal, GCMSeal, List.append_assoc, List.append_assoc] at h
  have htag := List.append_cancel_left h
  have hl : (gcmTagBytes key n1 pt).length = (gcmTagBytes key n2 pt).length := by
    simp [gcmTagBytes, hlen]
  have htag' : gcmTagBytes key n1 pt = gcmTagBytes key n2 pt :=
    List.append_inj_left htag hl
  have hre : ∀ n : List Nat, gcmTagBytes key n pt
      = ([key.time, key.memory] ++ encStrL key.password ++ (key.salt.length :: key.salt))
        ++ ((n.length :: n) ++ (pt.length :: pt)) := by
    intro n; simp [gcmTagBytes, List.append_assoc]
  rw [hre n1, hre n2] at htag'
  have h2 := List.append_cancel_left htag'
  rw [List.cons_append, List.cons_append] at h2
  exact List.append_inj_left (List.cons_eq_cons.mp h2).2 hlen

/-! ## File-system model

Single-process, no I/O failures (spec §5): the file system is a map from
paths to file contents.  Mutating operations of the Go code are recorded as an
explicit operation list so that the write discipline itself can be inspected. -/

/-- The file system: path to file contents, `none` when absent. -/
abbrev FS := String → Option (List Nat)

/-- One mutating file-system operation performed by the Go code. -/
inductive FSOp where
  | mkdirAll (dir : String)
  | writeFile (path : String) (data : List Nat)
  | rename (src dst : String)
deriving DecidableEq, Repr

/-- Effect of one operation on the file map (`mkdirAll` does not touch files). -/
def applyOp (fs : FS) : FSOp → FS
  | .mkdirAll _ => fs
  | .writeFile p d => fun q => if q = p then some d else fs q
  | .rename src dst => fun q =>
      if q = dst then fs src else if q = src then none else fs q

/-- Applying a sequence of operations in order. -/
def applyOps (fs : FS) (ops : List FSOp) : FS :=
  ops.foldl applyOp fs

/-- `filepath.Dir` for slash-separated paths (the claims never inspect the
directory name; `mkdirAll` has no effect on the file map). -/
def filepathDir (p : String) : String :=
  let parts := p.splitOn "/"
  if parts.length ≤ 1 then "." else String.intercalate "/" parts.dropLast

/-- Whether `ops` contains a direct write to `target`. -/
def directWrite (ops : List FSOp) (target : String) : Bool :=
  ops.any fun op =>
    match op with
    | .writeFile p _ => p == target
    | _ => false

/-- Whether `ops` contains any rename. -/
def hasRename (ops : List FSOp) : Bool :=
  ops.any fun op =>
    match op with
    | .rename _ _ => true
    | _ => false

/-! ## Store codec (`internal/store/store.go`)

`os.ReadFile` returns a slice whose capacity is at least 512 bytes (it
allocates `make([]byte, 0, max(512, size+1))`, a zeroed buffer), so the Go
slice expressions `data[:16]` and `data[16:28]` are in-bounds even for files
shorter than those indices and read trailing zero bytes, while `data[28:]`
(upper bound defaulting to `len(data)`) panics when `len(data) < 28`.  The
embedding reflects exactly those observable behaviours. -/

/-- Outcome of running a Go function that can hit a runtime panic. -/
inductive GoResult (α : Type) where
  | ok (a : α)
  | panicked
deriving DecidableEq, Repr

/-- The error values `LoadStore` can return (paired with its store result,
Go-style).  `fileNotExist` and `emptyFile` come with an empty store. -/
inductive LoadError where
  | fileNotExist
  | emptyFile
  | decryptFailed
  | unmarshalFailed
deriving DecidableEq, Repr

/-- `data[:16]` on an `os.ReadFile` result: the first 16 bytes, reading zero
bytes from the slice capacity when the file is shorter than 16 bytes. -/
def zeroPad16 (data : List Nat) : List Nat :=
  (data ++ List.replicate 16 0).take 16

/-- The salt `SaveStore` uses: the (zero-padded) first 16 bytes of an existing
file at `filePath`, otherwise the 16 fresh random bytes of `freshSalt`. -/
def saveSalt (fs : FS) (filePath : String) (freshSalt : Fin 16 → Nat) : List Nat :=
  match fs filePath with
  | some data => zeroPad16 data
  | none => List.ofFn freshSalt

/-- `store.SaveStore` as its sequence of file-system operations: reuse or
generate the salt, derive the key, marshal, encrypt with a fresh random nonce,
then `os.MkdirAll` and a single direct `os.WriteFile` of salt‖nonce‖ciphertext. -/
def SaveStore (fs : FS) (freshSalt : Fin 16 → Nat) (freshNonce : Fin 12 → Nat)
    (filePath password : String) (st : Store) : List FSOp :=
  let salt := saveSalt fs filePath freshSalt
  let key := DeriveKey password salt
  let plaintext := marshal st
  let nonce := List.ofFn freshNonce
  let encrypted := GCMSeal key nonce plaintext
  [.mkdirAll (filepathDir filePath), .writeFile filePath (salt ++ nonce ++ encrypted)]

/-- The file system after `SaveStore` has run. -/
def SaveStoreFS (fs : FS) (freshSalt : Fin 16 → Nat) (freshNonce : Fin 12 → Nat)
    (filePath password : String) (st : Store) : FS :=
  applyOps fs (SaveStore fs freshSalt freshNonce filePath password st)

/-- `store.LoadStore`: missing and empty files yield an empty `Store` (version
field unset, hence `0`) together with a non-nil error; a file of length 1–27
panics at the slice expression `data[28:]`; otherwise split salt/nonce/
ciphertext, derive the key, decrypt and unmarshal. -/
def LoadStore (fs : FS) (filePath password : String) :
    GoResult (Option Store × Option LoadError) :=
  match fs filePath with
  | none => .ok (some ⟨0, []⟩, some .fileNotExist)
  | some data =>
    if data.length = 0 then .ok (some ⟨0, []⟩, some .emptyFile)
    else if data.length < 28 then .panicked
    else
      let salt := data.take 16
      let nonce := (data.drop 16).take 12
      let encrypted := data.drop 28
      let key := DeriveKey password salt
      match GCMOpen key nonce encrypted with
      | none => .ok (none, some .decryptFailed)
      | some plaintext =>
        match unmarshal plaintext with
        | none => .ok (none, some .unmarshalFailed)
        | some st => .ok (some st, none)

theorem saveSalt_length (fs : FS) (filePath : String) (freshSalt : Fin 16 → Nat) :
    (saveSalt fs filePath freshSalt).length = 16 := by
  rw [saveSalt]
  match fs filePath with
  | some data =>
    simp [zeroPad16, List.length_take, List.length_append, List.length_replicate]
  | none => simp

/-- The single write `SaveStore` performs, and the shape of the written file. -/
theorem saveStore_ops (fs : FS) (freshSalt : Fin 16 → Nat) (freshNonce : Fin 12 → Nat)
    (filePath password : String) (st : Store) :
    SaveStore fs freshSalt freshNonce filePath password st
      = [.mkdirAll (filepathDir filePath),
         .writeFile filePath
           (saveSalt fs filePath freshSalt ++ List.ofFn freshNonce ++
            GCMSeal (DeriveKey password (saveSalt fs filePath freshSalt))
              (List.ofFn freshNonce) (marshal st))] := rfl

theorem saveStoreFS_at (fs : FS) (freshSalt : Fin 16 → Nat) (freshNonce : Fin 12 → Nat)
    (filePath password : String) (st : Store) :
    SaveStoreFS fs freshSalt freshNonce filePath password st filePath
      = some (saveSalt fs filePath freshSalt ++ List.ofFn freshNonce ++
          GCMSeal (DeriveKey password (saveSalt fs filePath freshSalt))
            (List.ofFn freshNonce) (marshal st)) := by
  simp [SaveStoreFS, SaveStore, applyOps, applyOp]

/-- Round-trip helper: loading right after a save returns the saved store. -/
theorem loadStore_saveStoreFS (fs : FS) (freshSalt : Fin 16 → Nat)
    (freshNonce : Fin 12 → Nat) (filePath password : String) (st : Store) :
    LoadStore (SaveStoreFS fs freshSalt freshNonce filePath password st)
      filePath password = .ok (some st, none) := by
  have hsalt := saveSalt_length fs filePath freshSalt
  set salt := saveSalt fs filePath freshSalt with hsaltdef
  set nonce := List.ofFn freshNonce with hnoncedef
  have hnonce : nonce.length = 12 := by simp [hnoncedef]
  set key := DeriveKey password salt with hkeydef
  set ct := GCMSeal key nonce (marshal st) with hctdef
  have hdata : SaveStoreFS fs freshSalt freshNonce filePath password st filePath
      = some (salt ++ nonce ++ ct) :=
    saveStoreFS_at fs freshSalt freshNonce filePath password st
  have hsn : (salt ++ nonce).length = 28 := by
    rw [List.length_append, hsalt, hnonce]
  have hctlen : 1 ≤ ct.length := by
    rw [hctdef, GCMSeal, List.length_append, List.length_append, List.length_cons]
    omega
  have hlen : (salt ++ nonce ++ ct).length = 28 + ct.length := by
    rw [List.length_append, hsn]
  have htake16 : (salt ++ nonce ++ ct).take 16 = salt := by
    rw [List.append_assoc]
    exact List.take_left' hsalt
  have hdrop16 : (salt ++ nonce ++ ct).drop 16 = nonce ++ ct := by
    rw [List.append_assoc]
    exact List.drop_left' hsalt
  have hnonce' : ((salt ++ nonce ++ ct).drop 16).take 12 = nonce := by
    rw [hdrop16]
    exact List.take_left' hnonce
  have hdrop28 : (salt ++ nonce ++ ct).drop 28 = ct := List.drop_left' hsn
  rw [LoadStore, hdata]
  simp only [hlen]
  rw [if_neg (by omega), if_neg (by omega)]
  simp only [htake16, hnonce', hdrop28, hctdef, gcmOpen_seal, unmarshal_marshal]

/-! ## Merge engine (`cmd/backup.go`, `importCmd` merge branch)

The conflict resolver (`utils.PromptForConflictChoice`) returns one of the
strings "l" (keep local), "i" (use imported), "s" (skip); it is injected here
as a function so the merge is deterministic. -/

/-- A conflict-resolution choice: the "l"/"i"/"s" answers of the prompt. -/
inductive Choice where
  | keepLocal
  | useImported
  | skip
deriving DecidableEq, Repr

/-- Result of the merge loop: the merged list and the three counters. -/
structure MergeOutcome where
  merged : List Secret
  importedCount : Nat
  skippedCount : Nat
  overwrittenCount : Nat
deriving DecidableEq, Repr

/-- The removal loop inside the `"i"` branch: delete the first entry of
`mergedSecrets` whose name matches, leaving the rest untouched. -/
def removeFirstByName (name : String) : List Secret → List Secret
  | [] => []
  | s :: rest => if s.name = name then rest else s :: removeFirstByName name rest

/-- One iteration of the outer merge loop over an imported secret: scan the
original local entries for a name match, resolve the conflict on the first
match, otherwise append the imported entry. -/
def mergeStep (localSecrets : List Secret) (resolve : Secret → Secret → Choice)
    (acc : MergeOutcome) (imp : Secret) : MergeOutcome :=
  match localSecrets.find? (fun cur => cur.name == imp.name) with
  | none =>
      { acc with merged := acc.merged ++ [imp],
                 importedCount := acc.importedCount + 1 }
  | some cur =>
    match resolve cur imp with
    | .skip => { acc with skippedCount := acc.skippedCount + 1 }
    | .keepLocal => { acc with skippedCount := acc.skippedCount + 1 }
    | .useImported =>
        { acc with merged := removeFirstByName imp.name acc.merged ++ [imp],
                   importedCount := acc.importedCount + 1,
                   overwrittenCount := acc.overwrittenCount + 1 }

/-- The merge loop of `importCmd`: the result starts as a copy of the local
entries and each imported entry is processed in order. -/
def mergeSecrets (localSecrets importedSecrets : List Secret)
    (resolve : Secret → Secret → Choice) : MergeOutcome :=
  importedSecrets.foldl (mergeStep localSecrets resolve)
    { merged := localSecrets, importedCount := 0, skippedCount := 0, overwrittenCount := 0 }

/-! ## The `add` command (`cmd/add.go`) and prompt validation (`internal/utils`) -/

/-- `utils.GeneratePassword`: builds the character set (lower/upper always,
digits then symbols appended on request) and draws `length` characters from
the injected random oracle (`rand.Int(rand.Reader, len(chars))` is uniform on
`[0, len)`, modelled as `tape i % chars.length`).  A non-positive length is an
error.  Go `int` length is modelled as `Int`. -/
def GeneratePassword (length : Int) (useSymbols useNumbers : Bool)
    (tape : Nat → Nat) : Except Unit String :=
  if length < 1 then .error ()
  else
    let chars := "abcdefghijklmnopqrstuvwxyzABCDEFGHIJKLMNOPQRSTUVWXYZ"
    let chars := if useNumbers then chars ++ "0123456789" else chars
    let chars := if useSymbols then chars ++ "!@#$%^&*()-_=+" else chars
    .ok (String.mk ((List.range length.toNat).map
      fun i => chars.data.getD (tape i % chars.data.length) 'a'))

/-- The validation closure of `utils.PromptForSecretName`: a candidate name is
accepted iff it is nonempty and no existing secret has exactly that name
(case-sensitive `==`). -/
def validateSecretName (currentSecrets : List Secret) (input : String) : Bool :=
  !(input == "") && currentSecrets.all (fun secret => !(secret.name == input))

/-- `utils.PromptForSecretName`: promptui re-prompts until the validator
accepts; the interactive session is modelled by the list of attempted inputs
and the result is the first accepted one (`none` if the user never enters a
valid name before the prompt is aborted). -/
def PromptForSecretName (currentSecrets : List Secret) (inputs : List String) :
    Option String :=
  inputs.find? (validateSecretName currentSecrets)

/-- How an `add` invocation ends (the `fmt.Println` error paths and the
success path of add.go). -/
inductive AddOutcome where
  | errNameRequired
  | errValueRequired
  | errNameExists
  | errGenerate
  | added (value : String)
deriving DecidableEq, Repr

/-- `addNonInteractive` (add.go): validate flags, reject a duplicate name
before anything else happens, then generate or take the given value, append
the new secret (its `CreatedAt` field is never set, hence the zero time) and
save.  Returns the outcome and the file-system operations performed. -/
def addNonInteractive (s : Store) (fs : FS) (freshSalt : Fin 16 → Nat)
    (freshNonce : Fin 12 → Nat) (filePath password : String)
    (name value category : String) (generate : Bool) (genLength : Int)
    (genSymbols genDigits : Bool) (genTape : Nat → Nat) : AddOutcome × List FSOp :=
  if name = "" then (.errNameRequired, [])
  else if value = "" ∧ ¬generate then (.errValueRequired, [])
  else if s.secrets.any (fun secret => secret.name == name) then (.errNameExists, [])
  else
    match (if generate then GeneratePassword genLength genSymbols genDigits genTape
           else .ok value) with
    | .error _ => (.errGenerate, [])
    | .ok secretValue =>
      let s' : Store := { s with secrets := s.secrets ++ [⟨name, secretValue, category, 0⟩] }
      (.added secretValue, SaveStore fs freshSalt freshNonce filePath password s')

/-- `addInteractive` (add.go), success path: `name`, `value` and `category`
are the results of the three prompts (prompt failures return before any store
mutation).  The constructed `store.Secret` literal sets only `Name`, `Value`
and `Category`, so `CreatedAt` stays the zero time. -/
def addInteractive (s : Store) (fs : FS) (freshSalt : Fin 16 → Nat)
    (freshNonce : Fin 12 → Nat) (filePath password : String)
    (name value category : String) : List FSOp :=
  let s' : Store := { s with secrets := s.secrets ++ [⟨name, value, category, 0⟩] }
  SaveStore fs freshSalt freshNonce filePath password s'

/-! ## Passphrase cache (`internal/cache`) and `getPassword` (`cmd/root.go`)

The cache key is `argon2.IDKey(hostname, "vlxck-cache-key", 3, 32*1024, 4, 32)`;
the cache file holds base64 text wrapping `nonce[12] ‖ ciphertext_with_tag`.
Base64 is modelled by an injective shift encoding with an explicit decoder
(`none` models invalid base64); the cached record `{password, expires_at}` by
the same length-prefixed codec as the store. -/

/-- The host-bound cache key (`init` of internal/cache). -/
def cacheKeyOf (hostname : String) : DerivedKey :=
  ⟨hostname, strBytes "vlxck-cache-key", 3, 32 * 1024⟩

/-- Model of `base64.StdEncoding.EncodeToString` on a byte list. -/
def b64encode (l : List Nat) : List Nat :=
  l.map (· + 1)

/-- Model of `base64.StdEncoding.DecodeString`; fails on bytes outside the
image of `b64encode`, modelling malformed base64 text. -/
def b64decode (l : List Nat) : Option (List Nat) :=
  if l.all (0 < ·) then some (l.map (· - 1)) else none

theorem b64decode_encode (l : List Nat) : b64decode (b64encode l) = some l := by
  simp only [b64encode, b64decode, List.all_map, List.map_map]
  rw [if_pos]
  · have : ((fun x => x - 1) ∘ fun x => x + 1) = @id Nat :=
      funext fun x => by simp
    rw [this, List.map_id]
  · simp [List.all_eq_true, Function.comp, Nat.succ_pos]

/-- `json.Marshal` of the cache record `{password, expires_at}`. -/
def cacheMarshal (password : String) (expiresAt : Nat) : List Nat :=
  encStrL password ++ [expiresAt]

/-- `json.Unmarshal` of the cache record. -/
def cacheUnmarshal (l : List Nat) : Option (String × Nat) :=
  match decStrL l with
  | none => none
  | some (password, rest) =>
    match rest with
    | [expiresAt] => some (password, expiresAt)
    | _ => none

theorem cacheUnmarshal_marshal (password : String) (expiresAt : Nat) :
    cacheUnmarshal (cacheMarshal password expiresAt) = some (password, expiresAt) := by
  simp [cacheMarshal, cacheUnmarshal, decStrL_encStrL]

/-- The error values `cache.GetMasterPassword` can return. -/
inductive CacheError where
  | decodeFailed
  | tooShort
  | decryptFailed
  | unmarshalFailed
deriving DecidableEq, Repr

/-- `cache.GetMasterPassword`: a missing cache file is "no cached value"
(empty password, nil error); decode, split the 12-byte nonce prefix, decrypt
and unmarshal each return a non-nil error on failure; an expired record
deletes the cache file and returns "no cached value"; otherwise the cached
password.  Result: (file system, returned password, returned error). -/
def GetMasterPassword (fs : FS) (cacheFile hostname : String) (now : Nat) :
    FS × String × Option CacheError :=
  match fs cacheFile with
  | none => (fs, "", none)
  | some data =>
    match b64decode data with
    | none => (fs, "", some .decodeFailed)
    | some ciphertext =>
      if ciphertext.length < 12 then (fs, "", some .tooShort)
      else
        match GCMOpen (cacheKeyOf hostname) (ciphertext.take 12) (ciphertext.drop 12) with
        | none => (fs, "", some .decryptFailed)
        | some plaintext =>
          match cacheUnmarshal plaintext with
          | none => (fs, "", some .unmarshalFailed)
          | some (password, expiresAt) =>
            if expiresAt < now then
              (fun p => if p = cacheFile then none else fs p, "", none)
            else (fs, password, none)

/-- What `getPassword` (cmd/root.go) produced: the password handed to the
caller (its error return is always nil), whether a warning diagnostic was
written to stderr, and whether the user was prompted. -/
structure GetPasswordResult where
  password : String
  warned : Bool
  prompted : Bool
deriving DecidableEq, Repr

/-- `getPassword` (cmd/root.go): unless `cacheOnSuccess`, consult the cache; a
cache error is logged as a warning and the user is prompted; a non-empty
cached password is returned as is; otherwise prompt (`promptInput` is what the
user types).  The file system returned by the cache read is not needed by the
return value and is dropped here. -/
def getPassword (cacheOnSuccess : Bool) (fs : FS) (cacheFile hostname : String)
    (now : Nat) (promptInput : String) : GetPasswordResult :=
  if ¬cacheOnSuccess then
    let r := GetMasterPassword fs cacheFile hostname now
    match r.2.2 with
    | some _ => { password := promptInput, warned := true, prompted := true }
    | none =>
      if r.2.1 ≠ "" then { password := r.2.1, warned := false, prompted := false }
      else { password := promptInput, warned := false, prompted := true }
  else { password := promptInput, warned := false, prompted := true }

/-! ## The claims -/

/-- C1: For every store `S` and passphrase `P`, saving `S` with `SaveStore`
and loading the same path with `LoadStore` under `P` returns a store equal to
`S` — entry order and every field (name, value, category, created_at, version)
preserved — with a nil error. -/
theorem c1_save_load_roundtrip (fs : FS) (freshSalt : Fin 16 → Nat)
    (freshNonce : Fin 12 → Nat) (filePath password : String) (st : Store) :
    LoadStore (SaveStoreFS fs freshSalt freshNonce filePath password st)
      filePath password = .ok (some st, none) :=
  loadStore_saveStoreFS fs freshSalt freshNonce filePath password st

/-- C2 counterexample: a concrete `SaveStore` call performs a direct
`os.WriteFile` of the target path and contains no rename, so it does not write
to a temporary path and atomically rename over the target as claimed. -/
theorem c2_counterexample :
    directWrite
      (SaveStore (fun _ => none) (fun _ => 1) (fun _ => 2) "/h/.vlxck/store.dat" "pw"
        ⟨1, [⟨"a", "1", "", 0⟩]⟩) "/h/.vlxck/store.dat" = true ∧
    hasRename
      (SaveStore (fun _ => none) (fun _ => 1) (fun _ => 2) "/h/.vlxck/store.dat" "pw"
        ⟨1, [⟨"a", "1", "", 0⟩]⟩) = false := by
  decide

/-- C2 amended: every `SaveStore` call performs exactly an `os.MkdirAll` of the
parent directory followed by one direct `os.WriteFile` of salt‖nonce‖ciphertext
to the target path itself — no temporary file and no rename, so an interrupted
save can leave the store file half-written. -/
theorem c2_direct_write (fs : FS) (freshSalt : Fin 16 → Nat)
    (freshNonce : Fin 12 → Nat) (filePath password : String) (st : Store) :
    SaveStore fs freshSalt freshNonce filePath password st
      = [.mkdirAll (filepathDir filePath),
         .writeFile filePath
           (saveSalt fs filePath freshSalt ++ List.ofFn freshNonce ++
            GCMSeal (DeriveKey password (saveSalt fs filePath freshSalt))
              (List.ofFn freshNonce) (marshal st))] ∧
    hasRename (SaveStore fs freshSalt freshNonce filePath password st) = false := by
  refine ⟨saveStore_ops fs freshSalt freshNonce filePath password st, ?_⟩
  simp [hasRename, SaveStore]

/-- C3 counterexample: on a missing file and on an empty file, `LoadStore`
returns the empty store with version `0` (not `1`) together with a non-nil
error (not success). -/
theorem c3_counterexample :
    LoadStore (fun _ => none) "/h/.vlxck/store.dat" "pw"
      = .ok (some ⟨0, []⟩, some .fileNotExist) ∧
    LoadStore (fun q => if q = "/h/.vlxck/store.dat" then some [] else none)
      "/h/.vlxck/store.dat" "pw" = .ok (some ⟨0, []⟩, some .emptyFile) := by
  decide

/-- C3 amended: for a missing file, and for an existing zero-length file,
`LoadStore` returns a fresh empty store whose version field is left at `0`
together with a non-nil error ("does not exist" / "is empty") — not a success
report, and not version 1. -/
theorem c3_missing_or_empty (fs : FS) (filePath password : String) :
    (fs filePath = none →
      LoadStore fs filePath password = .ok (some ⟨0, []⟩, some .fileNotExist)) ∧
    (fs filePath = some [] →
      LoadStore fs filePath password = .ok (some ⟨0, []⟩, some .emptyFile)) := by
  constructor
  · intro h
    rw [LoadStore, h]
  · intro h
    rw [LoadStore, h]
    simp

theorem c3_missing_or_empty_witness :
    LoadStore (fun _ => none) "s" "p" = .ok (some ⟨0, []⟩, some .fileNotExist) ∧
    LoadStore (fun q => if q = "s" then some [] else none) "s" "p"
      = .ok (some ⟨0, []⟩, some .emptyFile) :=
  ⟨(c3_missing_or_empty (fun _ => none) "s" "p").1 rfl,
   (c3_missing_or_empty (fun q => if q = "s" then some [] else none) "s" "p").2 (by decide)⟩

/-- C4: the code evaluated at the failing input — a store file of length 1
(any length 1–27 behaves the same) makes `LoadStore` hit the out-of-range Go
slice expression `data[28:]` and panic, instead of returning the `CorruptStore`
error value the claim (and spec §4.3 step 3) describes. -/
theorem c4_short_file_panics :
    LoadStore (fun q => if q = "/h/.vlxck/store.dat" then some [0] else none)
      "/h/.vlxck/store.dat" "pw" = .panicked := by
  decide

/-- The local entries of the spec's merge example: `{a:"1", b:"2"}`. -/
def mergeExLocal : List Secret :=
  [⟨"a", "1", "", 0⟩, ⟨"b", "2", "", 0⟩]

/-- The imported entries of the spec's merge example: `{b:"3", c:"4"}`. -/
def mergeExImported : List Secret :=
  [⟨"b", "3", "", 0⟩, ⟨"c", "4", "", 0⟩]

/-- C5: the merge starts from a copy of the local entries and processes
imported entries in order; an unmatched imported entry is appended and counted
as imported; on a name match `UseImported` removes the existing result entry of
that name and appends the imported one (counted imported and overwritten),
while `KeepLocal` or `Skip` leave the existing entry untouched (counted
skipped).  On the spec's example, an always-`UseImported` resolver yields
`{a:"1", b:"3", c:"4"}` with 2 imported / 1 overwritten / 0 skipped, and an
always-`KeepLocal` resolver yields `{a:"1", b:"2", c:"4"}` with 1 imported /
0 overwritten / 1 skipped. -/
theorem c5_merge_behaviour (localSecrets : List Secret)
    (resolve : Secret → Secret → Choice) (acc : MergeOutcome) (imp cur : Secret) :
    (localSecrets.find? (fun c => c.name == imp.name) = none →
      mergeStep localSecrets resolve acc imp
        = { acc with merged := acc.merged ++ [imp],
                     importedCount := acc.importedCount + 1 }) ∧
    (localSecrets.find? (fun c => c.name == imp.name) = some cur →
      resolve cur imp = .useImported →
      mergeStep localSecrets resolve acc imp
        = { acc with merged := removeFirstByName imp.name acc.merged ++ [imp],
                     importedCount := acc.importedCount + 1,
                     overwrittenCount := acc.overwrittenCount + 1 }) ∧
    (localSecrets.find? (fun c => c.name == imp.name) = some cur →
      resolve cur imp = .keepLocal ∨ resolve cur imp = .skip →
      mergeStep localSecrets resolve acc imp
        = { acc with skippedCount := acc.skippedCount + 1 }) ∧
    mergeSecrets mergeExLocal mergeExImported (fun _ _ => .useImported)
      = ⟨[⟨"a", "1", "", 0⟩, ⟨"b", "3", "", 0⟩, ⟨"c", "4", "", 0⟩], 2, 0, 1⟩ ∧
    mergeSecrets mergeExLocal mergeExImported (fun _ _ => .keepLocal)
      = ⟨[⟨"a", "1", "", 0⟩, ⟨"b", "2", "", 0⟩, ⟨"c", "4", "", 0⟩], 1, 1, 0⟩ := by
  refine ⟨?_, ?_, ?_, by decide, by decide⟩
  · intro h
    simp only [mergeStep, h]
  · intro h hr
    simp only [mergeStep, h, hr]
  · intro h hr
    rcases hr with hr | hr <;> simp only [mergeStep, h, hr]

theorem c5_merge_behaviour_witness :
    (mergeStep [] (fun _ _ => Choice.useImported) ⟨[], 0, 0, 0⟩ ⟨"x", "1", "", 0⟩
      = { (⟨[], 0, 0, 0⟩ : MergeOutcome) with
            merged := MergeOutcome.merged ⟨[], 0, 0, 0⟩ ++ [⟨"x", "1", "", 0⟩],
            importedCount := MergeOutcome.importedCount ⟨[], 0, 0, 0⟩ + 1 }) ∧
    (mergeStep [⟨"x", "0", "", 0⟩] (fun _ _ => Choice.useImported)
        ⟨[⟨"x", "0", "", 0⟩], 0, 0, 0⟩ ⟨"x", "1", "", 0⟩
      = { (⟨[⟨"x", "0", "", 0⟩], 0, 0, 0⟩ : MergeOutcome) with
            merged := removeFirstByName "x" [⟨"x", "0", "", 0⟩] ++ [⟨"x", "1", "", 0⟩],
            importedCount := 0 + 1, overwrittenCount := 0 + 1 }) ∧
    (mergeStep [⟨"x", "0", "", 0⟩] (fun _ _ => Choice.keepLocal)
        ⟨[⟨"x", "0", "", 0⟩], 0, 0, 0⟩ ⟨"x", "1", "", 0⟩
      = { (⟨[⟨"x", "0", "", 0⟩], 0, 0, 0⟩ : MergeOutcome) with skippedCount := 0 + 1 }) ∧
    (mergeStep [⟨"x", "0", "", 0⟩] (fun _ _ => Choice.skip)
        ⟨[⟨"x", "0", "", 0⟩], 0, 0, 0⟩ ⟨"x", "1", "", 0⟩
      = { (⟨[⟨"x", "0", "", 0⟩], 0, 0, 0⟩ : MergeOutcome) with skippedCount := 0 + 1 }) :=
  ⟨(c5_merge_behaviour [] (fun _ _ => .useImported) ⟨[], 0, 0, 0⟩ ⟨"x", "1", "", 0⟩
      ⟨"x", "0", "", 0⟩).1 (by decide),
   (c5_merge_behaviour [⟨"x", "0", "", 0⟩] (fun _ _ => .useImported)
      ⟨[⟨"x", "0", "", 0⟩], 0, 0, 0⟩ ⟨"x", "1", "", 0⟩ ⟨"x", "0", "", 0⟩).2.1
      (by decide) rfl,
   (c5_merge_behaviour [⟨"x", "0", "", 0⟩] (fun _ _ => .keepLocal)
      ⟨[⟨"x", "0", "", 0⟩], 0, 0, 0⟩ ⟨"x", "1", "", 0⟩ ⟨"x", "0", "", 0⟩).2.2.1
      (by decide) (Or.inl rfl),
   (c5_merge_behaviour [⟨"x", "0", "", 0⟩] (fun _ _ => .skip)
      ⟨[⟨"x", "0", "", 0⟩], 0, 0, 0⟩ ⟨"x", "1", "", 0⟩ ⟨"x", "0", "", 0⟩).2.2.1
      (by decide) (Or.inr rfl)⟩

/-- C6: on save, an existing file's first 16 bytes are reused as the salt and
a fresh random salt is generated only when no file exists; consequently two
successive saves of the same store with the same passphrase to the same path
yield files sharing their first 16 bytes while the nonce region and the
ciphertext differ (the two independently drawn random nonces being distinct). -/
theorem c6_salt_reuse_and_stability (fs : FS) (fS1 fS2 : Fin 16 → Nat)
    (fN1 fN2 : Fin 12 → Nat) (filePath password : String) (st : Store) :
    (∀ data, fs filePath = some data → 16 ≤ data.length →
      saveSalt fs filePath fS1 = data.take 16) ∧
    (fs filePath = none → saveSalt fs filePath fS1 = List.ofFn fS1) ∧
    (fs filePath = none → List.ofFn fN1 ≠ List.ofFn fN2 →
      ∃ d1 d2,
        SaveStoreFS fs fS1 fN1 filePath password st filePath = some d1 ∧
        SaveStoreFS (SaveStoreFS fs fS1 fN1 filePath password st) fS2 fN2
            filePath password st filePath = some d2 ∧
        d1.take 16 = List.ofFn fS1 ∧
        d2.take 16 = d1.take 16 ∧
        (d1.drop 16).take 12 = List.ofFn fN1 ∧
        (d2.drop 16).take 12 = List.ofFn fN2 ∧
        (d1.drop 16).take 12 ≠ (d2.drop 16).take 12 ∧
        d1.drop 28 ≠ d2.drop 28) := by
  have hs1 : (List.ofFn fS1).length = 16 := by simp
  have hn1 : (List.ofFn fN1).length = 12 := by simp
  have hn2 : (List.ofFn fN2).length = 12 := by simp
  refine ⟨?_, ?_, ?_⟩
  · intro data h hlen
    simp only [saveSalt, h, zeroPad16]
    exact List.take_append_of_le_length hlen
  · intro h
    simp only [saveSalt, h]
  · intro h hne
    have hsalt1 : saveSalt fs filePath fS1 = List.ofFn fS1 := by
      simp only [saveSalt, h]
    set key := DeriveKey password (List.ofFn fS1) with hkey
    set ct1 := GCMSeal key (List.ofFn fN1) (marshal st) with hct1
    set d1 := List.ofFn fS1 ++ List.ofFn fN1 ++ ct1 with hd1
    have hfs1 : SaveStoreFS fs fS1 fN1 filePath password st filePath = some d1 := by
      rw [saveStoreFS_at, hsalt1, hd1, hct1, hkey]
    have htake1 : d1.take 16 = List.ofFn fS1 := by
      rw [hd1, List.append_assoc]
      exact List.take_left' hs1
    have hd1len : 16 ≤ d1.length := by
      rw [hd1]
      simp only [List.length_append]
      omega
    have hsalt2 : saveSalt (SaveStoreFS fs fS1 fN1 filePath password st) filePath fS2
        = List.ofFn fS1 := by
      simp only [saveSalt, hfs1, zeroPad16]
      rw [List.take_append_of_le_length hd1len, htake1]
    set ct2 := GCMSeal key (List.ofFn fN2) (marshal st) with hct2
    set d2 := List.ofFn fS1 ++ List.ofFn fN2 ++ ct2 with hd2
    have hfs2 : SaveStoreFS (SaveStoreFS fs fS1 fN1 filePath password st) fS2 fN2
        filePath password st filePath = some d2 := by
      rw [saveStoreFS_at, hsalt2, hd2, hct2, hkey]
    have htake2 : d2.take 16 = List.ofFn fS1 := by
      rw [hd2, List.append_assoc]
      exact List.take_left' hs1
    have hmid1 : (d1.drop 16).take 12 = List.ofFn fN1 := by
      rw [hd1, List.append_assoc, List.drop_left' hs1]
      exact List.take_left' hn1
    have hmid2 : (d2.drop 16).take 12 = List.ofFn fN2 := by
      rw [hd2, List.append_assoc, List.drop_left' hs1]
      exact List.take_left' hn2
    have hdrop1 : d1.drop 28 = ct1 := by
      rw [hd1]
      exact List.drop_left' (by rw [List.length_append, hs1, hn1])
    have hdrop2 : d2.drop 28 = ct2 := by
      rw [hd2]
      exact List.drop_left' (by rw [List.length_append, hs1, hn2])
    refine ⟨d1, d2, hfs1, hfs2, htake1, by rw [htake1, htake2], hmid1, hmid2, ?_, ?_⟩
    · rw [hmid1, hmid2]
      exact hne
    · rw [hdrop1, hdrop2, hct1, hct2]
      exact gcmSeal_ne_of_nonce_ne key (marshal st) (hn1.trans hn2.symm) hne

theorem c6_salt_reuse_and_stability_witness :
    (saveSalt (fun q => if q = "s" then some (List.replicate 20 7) else none) "s"
        (fun _ => 3) = (List.replicate 20 7).take 16) ∧
    (saveSalt (fun _ => none) "s" (fun _ => 3) = List.ofFn (fun _ : Fin 16 => 3)) ∧
    (∃ d1 d2,
      SaveStoreFS (fun _ => none) (fun _ => 3) (fun _ => 5) "s" "p" ⟨1, []⟩ "s" = some d1 ∧
      SaveStoreFS (SaveStoreFS (fun _ => none) (fun _ => 3) (fun _ => 5) "s" "p" ⟨1, []⟩)
          (fun _ => 4) (fun _ => 6) "s" "p" ⟨1, []⟩ "s" = some d2 ∧
      d1.take 16 = List.ofFn (fun _ : Fin 16 => 3) ∧
      d2.take 16 = d1.take 16 ∧
      (d1.drop 16).take 12 = List.ofFn (fun _ : Fin 12 => 5) ∧
      (d2.drop 16).take 12 = List.ofFn (fun _ : Fin 12 => 6) ∧
      (d1.drop 16).take 12 ≠ (d2.drop 16).take 12 ∧
      d1.drop 28 ≠ d2.drop 28) :=
  ⟨(c6_salt_reuse_and_stability
      (fun q => if q = "s" then some (List.replicate 20 7) else none)
      (fun _ => 3) (fun _ => 4) (fun _ => 5) (fun _ => 6) "s" "p" ⟨1, []⟩).1
      (List.replicate 20 7) (by decide) (by decide),
   (c6_salt_reuse_and_stability (fun _ => none)
      (fun _ => 3) (fun _ => 4) (fun _ => 5) (fun _ => 6) "s" "p" ⟨1, []⟩).2.1 rfl,
   (c6_salt_reuse_and_stability (fun _ => none)
      (fun _ => 3) (fun _ => 4) (fun _ => 5) (fun _ => 6) "s" "p" ⟨1, []⟩).2.2 rfl
      (by decide)⟩

/-- C7 counterexample: on a concrete cache file whose contents fail
authenticated decryption, `GetMasterPassword` returns a non-nil error — an
observably different result from the "no cached value" answer it gives for a
missing cache file. -/
theorem c7_counterexample :
    (GetMasterPassword
        (fun q => if q = "cache" then some (b64encode (List.replicate 12 0 ++ [5])) else none)
        "cache" "host" 0).2 = ("", some .decryptFailed) ∧
    (GetMasterPassword (fun _ => none) "cache" "host" 0).2 = ("", none) := by
  decide

/-- Whenever `GetMasterPassword` returns a non-nil error, the password it
returns alongside is empty. -/
theorem getMasterPassword_err_empty (fs : FS) (cacheFile hostname : String)
    (now : Nat) :
    (GetMasterPassword fs cacheFile hostname now).2.2 = none ∨
    (GetMasterPassword fs cacheFile hostname now).2.1 = "" := by
  rw [GetMasterPassword]
  split
  · exact Or.inl rfl
  · split
    · exact Or.inr rfl
    · split
      · exact Or.inr rfl
      · split
        · exact Or.inr rfl
        · split
          · exact Or.inr rfl
          · split
            · exact Or.inl rfl
            · exact Or.inl rfl

/-- C7 amended: `GetMasterPassword` returns an empty password together with a
non-nil error when the cache file fails decoding or authenticated decryption;
its caller `getPassword` downgrades any such error to a non-fatal stderr
diagnostic and falls back to prompting, returning the prompted passphrase with
a nil error, so a corrupted cache never blocks the user. -/
theorem c7_cache_error_nonblocking (fs : FS) (cacheFile hostname : String)
    (now : Nat) (promptInput : String) (e : CacheError)
    (h : (GetMasterPassword fs cacheFile hostname now).2.2 = some e) :
    (GetMasterPassword fs cacheFile hostname now).2.1 = "" ∧
    getPassword false fs cacheFile hostname now promptInput
      = { password := promptInput, warned := true, prompted := true } := by
  constructor
  · rcases getMasterPassword_err_empty fs cacheFile hostname now with hc | hc
    · rw [hc] at h
      cases h
    · exact hc
  · simp [getPassword, h]

theorem c7_cache_error_nonblocking_witness :
    (GetMasterPassword
        (fun q => if q = "cache" then some (b64encode (List.replicate 12 1 ++ [7])) else none)
        "cache" "host" 0).2.1 = "" ∧
    getPassword false
        (fun q => if q = "cache" then some (b64encode (List.replicate 12 1 ++ [7])) else none)
        "cache" "host" 0 "typed"
      = { password := "typed", warned := true, prompted := true } :=
  c7_cache_error_nonblocking
    (fun q => if q = "cache" then some (b64encode (List.replicate 12 1 ++ [7])) else none)
    "cache" "host" 0 "typed" .decryptFailed (by decide)

/-- C8 counterexample: with an existing 5-byte file at the target path,
`SaveStore` performs no length validation and returns no error: it proceeds to
a write whose salt is the 5 file bytes zero-padded to 16 (the Go slice
expression `data[:16]` reads zeroed capacity of the `os.ReadFile` buffer). -/
theorem c8_counterexample :
    saveSalt (fun q => if q = "t" then some [7, 7, 7, 7, 7] else none) "t" (fun _ => 9)
      = [7, 7, 7, 7, 7, 0, 0, 0, 0, 0, 0, 0, 0, 0, 0, 0] ∧
    directWrite (SaveStore (fun q => if q = "t" then some [7, 7, 7, 7, 7] else none)
        (fun _ => 9) (fun _ => 8) "t" "pw" ⟨1, []⟩) "t" = true := by
  decide

/-- C8 amended: `SaveStore` does not validate the length of an existing file
at the target path: for every existing file it succeeds without error, taking
as salt the file's first 16 bytes zero-padded to 16 when the file is shorter
(a consequence of Go's `os.ReadFile` capacity semantics), and writes the new
store using that salt. -/
theorem c8_no_validation (fs : FS) (filePath password : String) (data : List Nat)
    (freshSalt : Fin 16 → Nat) (freshNonce : Fin 12 → Nat) (st : Store)
    (h : fs filePath = some data) :
    saveSalt fs filePath freshSalt = (data ++ List.replicate 16 0).take 16 ∧
    SaveStore fs freshSalt freshNonce filePath password st
      = [.mkdirAll (filepathDir filePath),
         .writeFile filePath
           ((data ++ List.replicate 16 0).take 16 ++ List.ofFn freshNonce ++
            GCMSeal (DeriveKey password ((data ++ List.replicate 16 0).take 16))
              (List.ofFn freshNonce) (marshal st))] := by
  have hsalt : saveSalt fs filePath freshSalt = (data ++ List.replicate 16 0).take 16 := by
    simp only [saveSalt, h, zeroPad16]
  exact ⟨hsalt, by rw [saveStore_ops, hsalt]⟩

theorem c8_no_validation_witness :
    saveSalt (fun q => if q = "u" then some [7, 7, 7] else none) "u" (fun _ => 9)
      = ([7, 7, 7] ++ List.replicate 16 0).take 16 ∧
    SaveStore (fun q => if q = "u" then some [7, 7, 7] else none) (fun _ => 9)
        (fun _ => 8) "u" "pw" ⟨1, []⟩
      = [.mkdirAll (filepathDir "u"),
         .writeFile "u"
           (([7, 7, 7] ++ List.replicate 16 0).take 16 ++ List.ofFn (fun _ : Fin 12 => 8) ++
            GCMSeal (DeriveKey "pw" (([7, 7, 7] ++ List.replicate 16 0).take 16))
              (List.ofFn (fun _ : Fin 12 => 8)) (marshal ⟨1, []⟩))] :=
  c8_no_validation (fun q => if q = "u" then some [7, 7, 7] else none) "u" "pw"
    [7, 7, 7] (fun _ => 9) (fun _ => 8) ⟨1, []⟩ (by decide)

/-- C9: adding a secret whose name already exists in the store (case-sensitive
exact match) is rejected before any encryption or save: the non-interactive
path reports the collision and performs no file-system operation, so the store
file on disk is unchanged; the interactive path's name prompt never returns a
colliding name. -/
theorem c9_duplicate_name_rejected (s : Store) (fs : FS) (freshSalt : Fin 16 → Nat)
    (freshNonce : Fin 12 → Nat) (filePath password name value category : String)
    (generate : Bool) (genLength : Int) (genSymbols genDigits : Bool)
    (genTape : Nat → Nat) (inputs : List String) (chosen : String) :
    (name ≠ "" → (value ≠ "" ∨ generate = true) →
      s.secrets.any (fun secret => secret.name == name) = true →
      addNonInteractive s fs freshSalt freshNonce filePath password name value category
          generate genLength genSymbols genDigits genTape = (.errNameExists, []) ∧
      applyOps fs [] = fs) ∧
    (PromptForSecretName s.secrets inputs = some chosen →
      s.secrets.all (fun secret => !(secret.name == chosen)) = true) := by
  constructor
  · intro hn hv he
    refine ⟨?_, rfl⟩
    rw [addNonInteractive, if_neg hn, if_neg ?_, if_pos he]
    rintro ⟨h1, h2⟩
    rcases hv with hv | hv
    · exact hv h1
    · exact h2 hv
  · intro h
    have hvalid := List.find?_some h
    exact (Bool.and_eq_true _ _ |>.mp hvalid).2

theorem c9_duplicate_name_rejected_witness :
    (addNonInteractive ⟨1, [⟨"x", "old", "", 0⟩]⟩ (fun _ => none) (fun _ => 1)
        (fun _ => 2) "s" "p" "x" "new" "" false 16 false false (fun _ => 0)
      = (.errNameExists, []) ∧
      applyOps (fun _ => none) [] = (fun _ => none)) ∧
    List.all [⟨"x", "old", "", 0⟩] (fun secret => !(Secret.name secret == "y")) = true :=
  ⟨(c9_duplicate_name_rejected ⟨1, [⟨"x", "old", "", 0⟩]⟩ (fun _ => none) (fun _ => 1)
      (fun _ => 2) "s" "p" "x" "new" "" false 16 false false (fun _ => 0)
      ["", "x", "y"] "y").1 (by decide) (Or.inl (by decide)) (by decide),
   (c9_duplicate_name_rejected ⟨1, [⟨"x", "old", "", 0⟩]⟩ (fun _ => none) (fun _ => 1)
      (fun _ => 2) "s" "p" "x" "new" "" false 16 false false (fun _ => 0)
      ["", "x", "y"] "y").2 (by decide)⟩

/-- C10: both add paths construct the new secret without setting `CreatedAt`,
so the entry is stored with the zero timestamp and the store subsequently
loaded from disk carries created_at `0` for it. -/
theorem c10_created_at_zero (s : Store) (fs : FS) (freshSalt : Fin 16 → Nat)
    (freshNonce : Fin 12 → Nat) (filePath password name value category : String)
    (generate : Bool) (genLength : Int) (genSymbols genDigits : Bool)
    (genTape : Nat → Nat) (v : String) (ops : List FSOp) :
    (LoadStore (applyOps fs (addInteractive s fs freshSalt freshNonce filePath password
        name value category)) filePath password
      = .ok (some { s with secrets := s.secrets ++ [⟨name, value, category, 0⟩] }, none)) ∧
    (addNonInteractive s fs freshSalt freshNonce filePath password name value category
        generate genLength genSymbols genDigits genTape = (.added v, ops) →
      LoadStore (applyOps fs ops) filePath password
        = .ok (some { s with secrets := s.secrets ++ [⟨name, v, category, 0⟩] }, none)) := by
  constructor
  · exact loadStore_saveStoreFS fs freshSalt freshNonce filePath password
      { s with secrets := s.secrets ++ [⟨name, value, category, 0⟩] }
  · intro h
    rw [addNonInteractive] at h
    by_cases hn : name = ""
    · rw [if_pos hn] at h
      exact absurd h (by simp)
    · rw [if_neg hn] at h
      by_cases hv : value = "" ∧ ¬generate
      · rw [if_pos hv] at h
        exact absurd h (by simp)
      · rw [if_neg hv] at h
        by_cases he : s.secrets.any (fun secret => secret.name == name) = true
        · rw [if_pos he] at h
          exact absurd h (by simp)
        · rw [if_neg he] at h
          match hg : (if generate then
              GeneratePassword genLength genSymbols genDigits genTape
            else Except.ok value) with
          | .error e =>
            rw [hg] at h
            exact absurd h (by simp)
          | .ok sv =>
            rw [hg] at h
            simp only [Prod.mk.injEq, AddOutcome.added.injEq] at h
            obtain ⟨h1, h2⟩ := h
            subst h1
            subst h2
            exact loadStore_saveStoreFS fs freshSalt freshNonce filePath password
              { s with secrets := s.secrets ++ [⟨name, sv, category, 0⟩] }

theorem c10_created_at_zero_witness :
    (LoadStore (applyOps (fun _ => none)
        (addInteractive ⟨1, []⟩ (fun _ => none) (fun _ => 1) (fun _ => 2) "s" "p"
          "n" "v" "c")) "s" "p"
      = .ok (some ⟨1, [] ++ [⟨"n", "v", "c", 0⟩]⟩, none)) ∧
    (LoadStore (applyOps (fun _ => none)
        (addNonInteractive ⟨1, []⟩ (fun _ => none) (fun _ => 1) (fun _ => 2) "s" "p"
          "n" "v" "c" false 16 false false (fun _ => 0)).2) "s" "p"
      = .ok (some ⟨1, [] ++ [⟨"n", "v", "c", 0⟩]⟩, none)) :=
  ⟨(c10_created_at_zero ⟨1, []⟩ (fun _ => none) (fun _ => 1) (fun _ => 2) "s" "p"
      "n" "v" "c" false 16 false false (fun _ => 0) "v"
      (addNonInteractive ⟨1, []⟩ (fun _ => none) (fun _ => 1) (fun _ => 2) "s" "p"
        "n" "v" "c" false 16 false false (fun _ => 0)).2).1,
   (c10_created_at_zero ⟨1, []⟩ (fun _ => none) (fun _ => 1) (fun _ => 2) "s" "p"
      "n" "v" "c" false 16 false false (fun _ => 0) "v"
      (addNonInteractive ⟨1, []⟩ (fun _ => none) (fun _ => 1) (fun _ => 2) "s" "p"
        "n" "v" "c" false 16 false false (fun _ => 0)).2).2 rfl⟩

end Vlxck
